import Mathlib

/-!
Shallow embedding of the Haliport one-to-one relay server (src/server.js):
room admission, the artifact registry, the recall engine, unlock flow,
access resolution, and the per-room polling buffer.

Conventions of the embedding:
* JS timestamps (`Date.now()`) are `Int` milliseconds, passed in explicitly.
* `crypto.sha256` is an abstract parameter `hash : String → String`;
  the code only ever compares hash outputs for equality.
* Filesystem locations are `FsPath` values tagged with the directory
  (`uploads` = publicly served, `vault` = restricted); `fs.renameSync`
  success/failure is the explicit boolean `renameOk`.
* WebSocket/SSE sends are side effects outside the registry; every event
  also goes through `pushEvent` into the room buffer, which we model,
  and additionally into a `trace` field recording all emitted events.
-/

namespace Haliport

/-- Which on-disk directory a stored file lives in: `uploads` is served
publicly at `/uploads`, `vault` is only reachable through gated endpoints. -/
inductive StoredDir
  | uploads
  | vault
deriving DecidableEq, Repr

/-- A stored file location: directory plus basename
(`path.join(dir, base)` in the source). -/
structure FsPath where
  dir : StoredDir
  base : String
deriving DecidableEq, Repr

/-- Field `item.type` in the registry record: `'chat' | 'file'`. -/
inductive ItemType
  | chat
  | file
deriving DecidableEq, Repr

/-- The `file` sub-record of a registry item:
`{ name, savedAs, size, mime }`. -/
structure FileMeta where
  name : String
  savedAs : String
  size : Nat
  mime : String
deriving DecidableEq, Repr

/-- A registry item (`reg` map value in server.js). `«protected»`, `salt`,
`pwHash` are set only for password-protected files; `timer` records whether
a TTL timeout handle is pending. -/
structure Item where
  id : String
  room : String
  type : ItemType
  ownerIP : String
  ownerId : Option String
  ts : Int
  text : Option String
  file : Option FileMeta
  filePath : Option FsPath
  privatePath : Option FsPath
  recalled : Bool
  expiresAt : Option Int
  timer : Bool
  «protected» : Bool
  salt : Option String
  pwHash : Option String
  unlockedForIP : Option String
deriving DecidableEq, Repr

/-- A reference handed out to clients (the `url` strings built by the
server: owner-gated, unlock-gated, or the public static route). -/
inductive UrlRef
  | myfile (id : String)
  | recvfile (id : String)
  | uploads (base : String)
deriving DecidableEq, Repr

/-- Server→client events pushed through `broadcast` / `sendTo`
(each one of the JSON payloads built in server.js). -/
inductive Event
  | chatEv (id : String) (fromId : Option String) (text : String) (ts : Int)
  | fileEv (id : String) (fromId : Option String) (ts : Int) (meta : FileMeta)
      (url : Option UrlRef) (prot : Bool) (expiresAt : Option Int)
  | fileOwnerEv (id : String) (ownerUrl : Option UrlRef)
  | fileUnlockedEv (id : String) (url : UrlRef)
  | recalledEv (id : String)
  | recalledOwnerEv (id : String) (newUrl : Option UrlRef)
deriving DecidableEq, Repr

/-- A room's polling buffer: `{ nextSeq, events }`. -/
structure RoomBuf where
  nextSeq : Nat
  events : List (Nat × Event)
deriving DecidableEq, Repr

/-- Per-websocket metadata (`metaWS` value): `{ room, ip, clientId }`. -/
structure MemberMeta where
  room : String
  ip : String
  clientId : String
deriving DecidableEq, Repr

/-- The server's mutable state: artifact registry `reg`, polling buffers
`roomBuffers`, websocket membership `roomsWS` (with each member's meta),
plus a `trace` of every event handed to `pushEvent`, in emission order. -/
structure ServerState where
  reg : List Item
  buffers : List (String × RoomBuf)
  rooms : List (String × List MemberMeta)
  trace : List (String × Event)
deriving DecidableEq, Repr

def initialState : ServerState := ⟨[], [], [], []⟩

/-- JS `Map.get(k)` over an association list with a key projection. -/
def mapGet {α : Type} (key : α → String) (l : List α) (k : String) : Option α :=
  l.find? (fun y => key y = k)

/-- JS `Map.set(key x, x)`: replace the entries holding the same key,
otherwise insert at the end. -/
def mapSet {α : Type} (key : α → String) (l : List α) (x : α) : List α :=
  if l.any (fun y => key y = key x) then
    l.map (fun y => if key y = key x then x else y)
  else l ++ [x]

/-- JS `reg.get(id)` on a raw registry list. -/
def regFind (reg : List Item) (id : String) : Option Item :=
  mapGet Item.id reg id

/-- JS `reg.get(id)`. -/
def regGet (st : ServerState) (id : String) : Option Item :=
  regFind st.reg id

/-- JS `reg.set(item.id, item)`. -/
def regSet (reg : List Item) (item : Item) : List Item :=
  mapSet Item.id reg item

/-- Fresh buffer created by `roomBuf` for an unseen room:
`{ nextSeq: 1, events: [] }`. -/
def emptyBuf : RoomBuf := ⟨1, []⟩

/-- The `roomBuf(room)` lookup (without the insertion side effect — the
inserted buffer is empty, so reads agree). -/
def bufGet (bufs : List (String × RoomBuf)) (room : String) : RoomBuf :=
  match mapGet Prod.fst bufs room with
  | some p => p.2
  | none => emptyBuf

def bufSet (bufs : List (String × RoomBuf)) (room : String) (b : RoomBuf) :
    List (String × RoomBuf) :=
  mapSet Prod.fst bufs (room, b)

/-- Append one event to a room buffer with the next sequence number, then
trim to the newest 1000 (`buf.events.splice(0, len - 1000)`). -/
def bufPush (b : RoomBuf) (e : Event) : RoomBuf :=
  let evs := b.events ++ [(b.nextSeq, e)]
  { nextSeq := b.nextSeq + 1
    events := if evs.length > 1000 then evs.drop (evs.length - 1000) else evs }

/-- JS `pushEvent(room, payload)`: the socket/SSE sends are external; the
state effect is the buffer append, and we log the event in `trace`. -/
def statePushEvent (st : ServerState) (room : String) (e : Event) : ServerState :=
  { st with
    buffers := bufSet st.buffers room (bufPush (bufGet st.buffers room) e)
    trace := st.trace ++ [(room, e)] }

/-- JS `roomsWS.get(room)` as a member list (empty when absent). -/
def roomMembers (st : ServerState) (room : String) : List MemberMeta :=
  match mapGet Prod.fst st.rooms room with
  | some p => p.2
  | none => []

def roomsSet (rooms : List (String × List MemberMeta)) (room : String)
    (ms : List MemberMeta) : List (String × List MemberMeta) :=
  mapSet Prod.fst rooms (room, ms)

/-- JS `String(x || '')` for a possibly-missing string field. -/
def strOf : Option String → String
  | none => ""
  | some s => s

/-- JS `s.slice(0, 4000)`: the first 4000 units (chars model code units). -/
def jsSlice4000 (s : String) : String := String.mk (s.data.take 4000)

/-- JS `s.trim()`: strip leading and trailing whitespace (structural model,
so that it evaluates on concrete inputs). -/
def jsTrim (s : String) : String :=
  String.mk (((s.data.dropWhile Char.isWhitespace).reverse.dropWhile
    Char.isWhitespace).reverse)

/-- JS `clamp(n, lo, hi) = Math.max(lo, Math.min(hi, n))`. -/
def clampI (n lo hi : Int) : Int := max lo (min hi n)

/-- Mover `moveFileToVault(item)`: no-op unless the item is a file currently at a
public path with no private path. On success (`renameOk`), the file moves to
the vault keeping its basename; on filesystem failure it is unlinked and
both paths cleared. -/
def moveFileToVault (renameOk : Bool) (item : Item) : Item :=
  if item.type ≠ ItemType.file ∨ item.privatePath.isSome ∨ item.filePath.isNone then
    item
  else
    match item.filePath with
    | none => item
    | some p =>
      if renameOk then
        { item with privatePath := some ⟨StoredDir.vault, p.base⟩, filePath := none }
      else
        { item with privatePath := none, filePath := none }

/-- Engine `performRecall(id)`: no-op when the id is unknown or already recalled;
otherwise sets `recalled`, clears the TTL timer, moves a file to the vault,
clears `unlockedForIP`, and broadcasts the `recalled` and `recalled_owner`
events (the latter with an owner url when a private path exists). -/
def performRecall (renameOk : Bool) (id : String) (st : ServerState) : ServerState :=
  match regGet st id with
  | none => st
  | some item =>
    if item.recalled then st
    else
      let item1 := { item with recalled := true, timer := false }
      let item2 := if item1.type = ItemType.file then moveFileToVault renameOk item1 else item1
      let item3 := { item2 with unlockedForIP := none }
      let st1 := { st with reg := regSet st.reg item3 }
      let st2 := statePushEvent st1 item.room (Event.recalledEv id)
      let ownerUrl : Option UrlRef :=
        if item3.type = ItemType.file ∧ item3.privatePath.isSome then
          some (UrlRef.myfile id)
        else none
      statePushEvent st2 item.room (Event.recalledOwnerEv id ownerUrl)

/-- HTTP-level outcome of `POST /unlock/:id`. -/
inductive UnlockResult
  | invalidItem
  | ownerNoUnlock
  | wrongPassword
  | okUnlock
deriving DecidableEq, Repr

/-- Endpoint `POST /unlock/:id`: rejects unknown / non-file / unprotected / recalled
items, rejects the owner, recalls on a hash mismatch, and on a match records
the requester as the unlocked identity and broadcasts `file_unlocked`. -/
def unlock (hash : String → String) (renameOk : Bool) (id pwd ip : String)
    (st : ServerState) : UnlockResult × ServerState :=
  match regGet st id with
  | none => (UnlockResult.invalidItem, st)
  | some item =>
    if item.type ≠ ItemType.file ∨ item.«protected» = false ∨ item.recalled then
      (UnlockResult.invalidItem, st)
    else if ip = item.ownerIP then
      (UnlockResult.ownerNoUnlock, st)
    else if hash (strOf item.salt ++ "|" ++ pwd) ≠ strOf item.pwHash then
      (UnlockResult.wrongPassword, performRecall renameOk id st)
    else
      let item1 := { item with unlockedForIP := some ip }
      let st1 := { st with reg := regSet st.reg item1 }
      (UnlockResult.okUnlock,
        statePushEvent st1 item.room (Event.fileUnlockedEv id (UrlRef.recvfile id)))

/-- Outcome of `GET /fileurl/:id`. -/
inductive FileUrlResult
  | notFound
  | okRef (url : UrlRef)
  | notAccessible
deriving DecidableEq, Repr

def fpBase : Option FsPath → String
  | some p => p.base
  | none => ""

def fpVal : Option FsPath → FsPath
  | some p => p
  | none => ⟨StoredDir.uploads, ""⟩

/-- Endpoint `GET /fileurl/:id` access resolution: owner with a private path gets the
owner url; an unprotected, unrecalled, publicly-stored file gets the public
url; a protected file unlocked for this requester gets the receiver url;
otherwise access is denied. -/
def fileurl (id ip : String) (st : ServerState) : FileUrlResult :=
  match regGet st id with
  | none => FileUrlResult.notFound
  | some item =>
    if item.type ≠ ItemType.file then FileUrlResult.notFound
    else if ip = item.ownerIP ∧ item.privatePath.isSome then
      FileUrlResult.okRef (UrlRef.myfile id)
    else if item.«protected» = false ∧ item.recalled = false ∧ item.filePath.isSome then
      FileUrlResult.okRef (UrlRef.uploads (fpBase item.filePath))
    else if item.«protected» = true ∧ item.unlockedForIP.isSome ∧
        item.unlockedForIP = some ip ∧ item.privatePath.isSome then
      FileUrlResult.okRef (UrlRef.recvfile id)
    else FileUrlResult.notAccessible

/-- Outcome of the byte-serving endpoints `/myfile/:id` and `/recvfile/:id`. -/
inductive ServeResult
  | notFound404
  | forbidden
  | served (p : FsPath)
deriving DecidableEq, Repr

/-- Endpoint `GET /myfile/:id`: serves the private path to the recorded owner only. -/
def myfile (id ip : String) (st : ServerState) : ServeResult :=
  match regGet st id with
  | none => ServeResult.notFound404
  | some item =>
    if item.type ≠ ItemType.file ∨ item.privatePath.isNone then ServeResult.notFound404
    else if ip ≠ item.ownerIP then ServeResult.forbidden
    else ServeResult.served (fpVal item.privatePath)

/-- Endpoint `GET /recvfile/:id`: serves the private path only to the identity the
file is currently unlocked for (`ip !== item.unlockedForIP` rejects,
including when no identity is unlocked). -/
def recvfile (id ip : String) (st : ServerState) : ServeResult :=
  match regGet st id with
  | some item =>
    if item.type ≠ ItemType.file ∨ item.privatePath.isNone then ServeResult.notFound404
    else if some ip ≠ item.unlockedForIP then ServeResult.forbidden
    else ServeResult.served (fpVal item.privatePath)
  | none => ServeResult.notFound404

/-- A file as multer saved it: original name, saved basename, size, mime. -/
structure UploadedFile where
  originalname : String
  savedBase : String
  size : Nat
  mime : String
deriving DecidableEq, Repr

/-- JS `(req.body?.pw && String(req.body.pw).trim()) || ''` — the trimmed
password, empty when absent or blank. -/
def pwRawOf : Option String → String
  | none => ""
  | some s => jsTrim s

/-- JS `clamp(parseInt(ttl ?? '0', 10) || 0, 0, 31*24*3600)` — the requested
TTL in seconds, missing/unparseable treated as 0. -/
def ttlSecOf (ttlIn : Option Int) : Int :=
  clampI (match ttlIn with | none => 0 | some n => n) 0 (31 * 24 * 3600)

/-- The `scheduleAutoRecall` timeout delay:
`clamp(item.expiresAt - now(), 0, 2147483647)` milliseconds. -/
def scheduleDelay (expiresAt tNow : Int) : Int :=
  clampI (expiresAt - tNow) 0 2147483647

/-- Absolute time at which the TTL timer fires, when armed at `tNow`. -/
def fireAt (expiresAt tNow : Int) : Int := tNow + scheduleDelay expiresAt tNow

/-- The TTL timer callback: `setTimeout(() => performRecall(item.id), delay)`. -/
def timerFire (renameOk : Bool) (id : String) (st : ServerState) : ServerState :=
  performRecall renameOk id st

/-- The registry record built for one uploaded file in `POST /upload/:room`:
vault placement, salted hash and `protected` flag when a password is
present, `expiresAt` and an armed timer when TTL > 0. -/
def uploadRecord (hash : String → String) (room ownerIP : String)
    (ownerId : Option String) (ttlIn : Option Int) (pw : Option String)
    (tNow : Int) (id salt : String) (f : UploadedFile) : Item :=
  let ttlSec := ttlSecOf ttlIn
  let pwRaw := pwRawOf pw
  let hasPw : Bool := pwRaw ≠ ""
  let fpath : FsPath := ⟨if hasPw then StoredDir.vault else StoredDir.uploads, f.savedBase⟩
  { id := id, room := room, type := ItemType.file, ownerIP := ownerIP
    ownerId := ownerId, ts := tNow, text := none
    file := some ⟨f.originalname, f.savedBase, f.size, f.mime⟩
    filePath := if hasPw then none else some fpath
    privatePath := if hasPw then some fpath else none
    recalled := false
    expiresAt := if ttlSec > 0 then some (tNow + ttlSec * 1000) else none
    timer := ttlSec > 0
    «protected» := hasPw
    salt := if hasPw then some salt else none
    pwHash := if hasPw then some (hash (salt ++ "|" ++ pwRaw)) else none
    unlockedForIP := none }

/-- The broadcast `file` payload for one uploaded file: public url only when
no password was supplied. -/
def uploadPayload (hash : String → String) (room ownerIP : String)
    (ownerId : Option String) (ttlIn : Option Int) (pw : Option String)
    (tNow : Int) (id salt : String) (f : UploadedFile) : Event :=
  let record := uploadRecord hash room ownerIP ownerId ttlIn pw tNow id salt f
  Event.fileEv id ownerId tNow ⟨f.originalname, f.savedBase, f.size, f.mime⟩
    (if pwRawOf pw ≠ "" then none else some (UrlRef.uploads (fpBase record.filePath)))
    (pwRawOf pw ≠ "") record.expiresAt

/-- The owner augmentation event (`file_owner`) for one uploaded file. -/
def uploadOwnerAug (hash : String → String) (room ownerIP : String)
    (ownerId : Option String) (ttlIn : Option Int) (pw : Option String)
    (tNow : Int) (id salt : String) (f : UploadedFile) : Event :=
  let record := uploadRecord hash room ownerIP ownerId ttlIn pw tNow id salt f
  Event.fileOwnerEv id
    (if record.privatePath.isSome then some (UrlRef.myfile id) else none)

/-- One iteration of the `(req.files || []).forEach(f => ...)` body of
`POST /upload/:room`: store the record, broadcast the file event, and send
the owner augmentation (which also lands in the room buffer via
`pushEvent`). -/
def uploadOne (hash : String → String) (room ownerIP : String)
    (ownerId : Option String) (ttlIn : Option Int) (pw : Option String)
    (tNow : Int) (id salt : String) (f : UploadedFile) (st : ServerState) :
    ServerState :=
  let record := uploadRecord hash room ownerIP ownerId ttlIn pw tNow id salt f
  let st1 := { st with reg := regSet st.reg record }
  let st2 := statePushEvent st1 room
    (uploadPayload hash room ownerIP ownerId ttlIn pw tNow id salt f)
  statePushEvent st2 room
    (uploadOwnerAug hash room ownerIP ownerId ttlIn pw tNow id salt f)

/-- Endpoint `POST /upload/:room` over the whole file list; always answers
`{ ok: true }`. Each file gets its own generated id and salt. -/
def uploadPost (hash : String → String) (room ownerIP : String)
    (ownerId : Option String) (ttlIn : Option Int) (pw : Option String)
    (tNow : Int) (files : List (String × String × UploadedFile))
    (st : ServerState) : Bool × ServerState :=
  (true,
    files.foldl
      (fun s fi => uploadOne hash room ownerIP ownerId ttlIn pw tNow fi.1 fi.2.1 fi.2.2 s)
      st)

/-- Admission outcome of a websocket connection. -/
inductive JoinResult
  | roomFull
  | joined
deriving DecidableEq, Repr

/-- Handler `wss.on('connection')` admission: a room holding 2 members rejects with
`room_full` and closes the socket without registering it; otherwise the
member is added and welcome/presence are sent (socket-only, no buffer). -/
def wsJoin (room ip clientId : String) (st : ServerState) : JoinResult × ServerState :=
  let set := roomMembers st room
  if set.length ≥ 2 then (JoinResult.roomFull, st)
  else
    (JoinResult.joined,
      { st with rooms := roomsSet st.rooms room (set ++ [⟨room, ip, clientId⟩]) })

/-- Handler `ws.on('close')`: drop the member; delete the room entry when empty. -/
def wsLeave (room clientId : String) (st : ServerState) : ServerState :=
  let remaining := (roomMembers st room).filter (fun m => m.clientId ≠ clientId)
  if remaining.isEmpty then
    { st with rooms := st.rooms.filter (fun p => p.1 ≠ room) }
  else
    { st with rooms := roomsSet st.rooms room remaining }

/-- The registry record stored by the websocket `chat` handler. -/
def wsChatItem (m : MemberMeta) (text : Option String) (tNow : Int)
    (id : String) : Item :=
  { id := id, room := m.room, type := ItemType.chat, ownerIP := m.ip
    ownerId := some m.clientId, ts := tNow, text := some (jsSlice4000 (strOf text))
    file := none, filePath := none, privatePath := none, recalled := false
    expiresAt := none, timer := false, «protected» := false
    salt := none, pwHash := none, unlockedForIP := none }

/-- Websocket `chat` message: store the artifact with the text truncated to
4000 units, then broadcast the chat event carrying `String(data.text||'')`
(the untruncated input). -/
def wsChat (m : MemberMeta) (text : Option String) (tNow : Int) (id : String)
    (st : ServerState) : ServerState :=
  let st1 := { st with reg := regSet st.reg (wsChatItem m text tNow id) }
  statePushEvent st1 m.room (Event.chatEv id (some m.clientId) (strOf text) tNow)

/-- Outcome of a websocket `recall` message. -/
inductive WsRecallResult
  | ignored
  | errNotOwner
  | recalled
deriving DecidableEq, Repr

/-- Websocket `recall` message: silently ignored when the id is missing,
unknown, or in another room; rejected with an error frame (socket-only,
no state change) when the requester's clientId differs from the artifact's
`ownerId`; otherwise performs the recall. -/
def wsRecall (renameOk : Bool) (m : MemberMeta) (idArg : Option String)
    (st : ServerState) : WsRecallResult × ServerState :=
  match idArg with
  | none => (WsRecallResult.ignored, st)
  | some rid =>
    match regGet st rid with
    | none => (WsRecallResult.ignored, st)
    | some item =>
      if item.room ≠ m.room then (WsRecallResult.ignored, st)
      else if item.ownerId ≠ some m.clientId then (WsRecallResult.errNotOwner, st)
      else (WsRecallResult.recalled, performRecall renameOk rid st)

/-- HTTP-level outcome of `POST /push`. -/
inductive PushResult
  | badRequest
  | okPush
deriving DecidableEq, Repr

/-- The registry record stored by the `/push` chat branch. -/
def pushChatItem (room : String) (fromId : Option String) (text : Option String)
    (tNow : Int) (id : String) : Item :=
  { id := id, room := room, type := ItemType.chat, ownerIP := "poll"
    ownerId := fromId, ts := tNow, text := some (jsSlice4000 (strOf text))
    file := none, filePath := none, privatePath := none, recalled := false
    expiresAt := none, timer := false, «protected» := false
    salt := none, pwHash := none, unlockedForIP := none }

/-- Endpoint `POST /push` with `type: 'chat'`: store the artifact (owner identity
fixed to `'poll'`, text truncated) and broadcast the untruncated text. -/
def pushChat (room : String) (fromId : Option String) (text : Option String)
    (tNow : Int) (id : String) (st : ServerState) : PushResult × ServerState :=
  let st1 := { st with reg := regSet st.reg (pushChatItem room fromId text tNow id) }
  (PushResult.okPush,
    statePushEvent st1 room (Event.chatEv id fromId (strOf text) tNow))

/-- Endpoint `POST /push` with `type: 'recall'`: performs `performRecall(String(id))`
directly — no ownership or room check of any kind — and answers ok. -/
def pushRecall (renameOk : Bool) (idArg : Option String) (st : ServerState) :
    PushResult × ServerState :=
  match idArg with
  | none => (PushResult.badRequest, st)
  | some rid => (PushResult.okPush, performRecall renameOk rid st)

/-- Endpoint `GET /poll?room=..&after=..`: the buffered events with sequence number
strictly greater than the cursor, plus `next: buf.nextSeq`. -/
def poll (room : String) (after : Nat) (st : ServerState) :
    List (Nat × Event) × Nat :=
  let buf := bufGet st.buffers room
  (buf.events.filter (fun e => after < e.1), buf.nextSeq)

/-- One client-triggered state transition of the server, covering every
handler that mutates the registry, the room membership, or the buffers. -/
inductive Op
  | opUpload (hash : String → String) (room ownerIP : String)
      (ownerId : Option String) (ttlIn : Option Int) (pw : Option String)
      (tNow : Int) (id salt : String) (f : UploadedFile)
  | opWsChat (m : MemberMeta) (text : Option String) (tNow : Int) (id : String)
  | opPushChat (room : String) (fromId : Option String) (text : Option String)
      (tNow : Int) (id : String)
  | opWsJoin (room ip clientId : String)
  | opWsLeave (room clientId : String)
  | opWsRecall (renameOk : Bool) (m : MemberMeta) (idArg : Option String)
  | opPushRecall (renameOk : Bool) (idArg : Option String)
  | opUnlock (hash : String → String) (renameOk : Bool) (id pwd ip : String)
  | opTimerFire (renameOk : Bool) (id : String)

/-- The state reached by executing one operation (responses discarded). -/
def stepState : Op → ServerState → ServerState
  | Op.opUpload hash room ownerIP ownerId ttlIn pw tNow id salt f, st =>
    uploadOne hash room ownerIP ownerId ttlIn pw tNow id salt f st
  | Op.opWsChat m text tNow id, st => wsChat m text tNow id st
  | Op.opPushChat room fromId text tNow id, st => (pushChat room fromId text tNow id st).2
  | Op.opWsJoin room ip clientId, st => (wsJoin room ip clientId st).2
  | Op.opWsLeave room clientId, st => wsLeave room clientId st
  | Op.opWsRecall renameOk m idArg, st => (wsRecall renameOk m idArg st).2
  | Op.opPushRecall renameOk idArg, st => (pushRecall renameOk idArg st).2
  | Op.opUnlock hash renameOk id pwd ip, st => (unlock hash renameOk id pwd ip st).2
  | Op.opTimerFire renameOk id, st => timerFire renameOk id st

/-- Artifact-creating operations use a freshly generated `uid()`; the model
states that freshness as: the id is not yet in the registry. -/
def opFresh : Op → ServerState → Prop
  | Op.opUpload _ _ _ _ _ _ _ id _ _, st => regGet st id = none
  | Op.opWsChat _ _ _ id, st => regGet st id = none
  | Op.opPushChat _ _ _ _ id, st => regGet st id = none
  | _, _ => True

/-- Once an item is recorded as recalled, it stays recorded as recalled. -/
def recalledMono (st st' : ServerState) : Prop :=
  ∀ id it, regGet st id = some it → it.recalled = true →
    ∃ it', regGet st' id = some it' ∧ it'.recalled = true

/-- No password-protected item ever carries a public path. -/
def protNeverPublic (st : ServerState) : Prop :=
  ∀ id it, regGet st id = some it → it.«protected» = true → it.filePath = none

/-! ### Map lemmas -/

theorem mapGet_some_key {α : Type} {key : α → String} {l : List α} {k : String}
    {x : α} (h : mapGet key l k = some x) : key x = k := by
  have := List.find?_some h
  simpa using this

theorem mapGet_map_replace {α : Type} (key : α → String) (l : List α) (x : α)
    (k : String) :
    mapGet key (l.map (fun y => if key y = key x then x else y)) k =
      (mapGet key l k).map (fun y => if key y = key x then x else y) := by
  unfold mapGet
  rw [List.find?_map]
  have hp : ((fun y : α => decide (key y = k)) ∘
      (fun y => if key y = key x then x else y)) =
      (fun y : α => decide (key y = k)) := by
    funext y
    by_cases hh : key y = key x
    · simp [Function.comp, hh]
    · simp [Function.comp, hh]
  rw [hp]

/-- JS `Map.get` after `Map.set`: the written entry under its key, everything
else untouched. -/
theorem mapGet_mapSet {α : Type} (key : α → String) (l : List α) (x : α)
    (k : String) :
    mapGet key (mapSet key l x) k = if k = key x then some x else mapGet key l k := by
  unfold mapSet
  by_cases hany : l.any (fun y => key y = key x) = true
  · simp only [hany, if_true]
    rw [mapGet_map_replace]
    by_cases hk : k = key x
    · subst hk
      rcases hx : mapGet key l (key x) with _ | y
      · exfalso
        rcases List.any_eq_true.mp hany with ⟨z, hz, hzk⟩
        exact List.find?_eq_none.mp hx z hz hzk
      · have hyk : key y = key x := mapGet_some_key hx
        simp [hyk]
    · rcases hx : mapGet key l k with _ | y
      · simp [hk]
      · have hyk : key y = k := mapGet_some_key hx
        have hne : ¬ key y = key x := by rw [hyk]; exact hk
        simp [hk, hne]
  · rw [if_neg hany]
    unfold mapGet
    rw [List.find?_append]
    have hnone : List.find? (fun y : α => decide (key y = key x)) l = none := by
      rw [List.find?_eq_none]
      intro z hz hzk
      exact hany (List.any_eq_true.mpr ⟨z, hz, hzk⟩)
    by_cases hk : k = key x
    · subst hk
      rw [hnone]
      simp
    · have hx : List.find? (fun y : α => decide (key y = k)) [x] = none := by
        have hne : ¬ key x = k := fun h => hk h.symm
        simp [hne]
      rw [hx, Option.or_none]
      simp [hk]

theorem regFind_some_id {reg : List Item} {id : String} {it : Item}
    (h : regFind reg id = some it) : it.id = id :=
  mapGet_some_key h

theorem regFind_regSet (reg : List Item) (item : Item) (id : String) :
    regFind (regSet reg item) id = if id = item.id then some item else regFind reg id :=
  mapGet_mapSet Item.id reg item id

theorem regFind_regSet_self (reg : List Item) (item : Item) :
    regFind (regSet reg item) item.id = some item := by
  rw [regFind_regSet, if_pos rfl]

theorem bufGet_bufSet (bufs : List (String × RoomBuf)) (room : String)
    (b : RoomBuf) (r : String) :
    bufGet (bufSet bufs room b) r = if r = room then b else bufGet bufs r := by
  unfold bufGet bufSet
  rw [mapGet_mapSet]
  by_cases hr : r = room
  · simp [hr]
  · simp [hr]

theorem roomMembers_roomsSet (st : ServerState) (rooms : List (String × List MemberMeta))
    (room : String) (ms : List MemberMeta) (r : String) :
    roomMembers { st with rooms := roomsSet rooms room ms } r =
      if r = room then ms
      else roomMembers { st with rooms := rooms } r := by
  unfold roomMembers roomsSet
  show (match mapGet Prod.fst (mapSet Prod.fst rooms (room, ms)) r with
    | some p => p.2 | none => []) = _
  rw [mapGet_mapSet]
  by_cases hr : r = room
  · simp [hr]
  · simp [hr]

theorem regGet_statePushEvent (st : ServerState) (room : String) (e : Event)
    (id : String) : regGet (statePushEvent st room e) id = regGet st id := rfl

theorem rooms_statePushEvent (st : ServerState) (room : String) (e : Event) :
    (statePushEvent st room e).rooms = st.rooms := rfl

/-! ### Storage mover lemmas -/

theorem moveFileToVault_id (rOk : Bool) (it : Item) :
    (moveFileToVault rOk it).id = it.id := by
  unfold moveFileToVault
  split
  · rfl
  · split
    · rfl
    · split <;> rfl

theorem moveFileToVault_recalled (rOk : Bool) (it : Item) :
    (moveFileToVault rOk it).recalled = it.recalled := by
  unfold moveFileToVault
  split
  · rfl
  · split
    · rfl
    · split <;> rfl

theorem moveFileToVault_room (rOk : Bool) (it : Item) :
    (moveFileToVault rOk it).room = it.room := by
  unfold moveFileToVault
  split
  · rfl
  · split
    · rfl
    · split <;> rfl

theorem moveFileToVault_type (rOk : Bool) (it : Item) :
    (moveFileToVault rOk it).type = it.type := by
  unfold moveFileToVault
  split
  · rfl
  · split
    · rfl
    · split <;> rfl

theorem moveFileToVault_ownerIP (rOk : Bool) (it : Item) :
    (moveFileToVault rOk it).ownerIP = it.ownerIP := by
  unfold moveFileToVault
  split
  · rfl
  · split
    · rfl
    · split <;> rfl

theorem moveFileToVault_protected (rOk : Bool) (it : Item) :
    (moveFileToVault rOk it).«protected» = it.«protected» := by
  unfold moveFileToVault
  split
  · rfl
  · split
    · rfl
    · split <;> rfl

theorem moveFileToVault_timer (rOk : Bool) (it : Item) :
    (moveFileToVault rOk it).timer = it.timer := by
  unfold moveFileToVault
  split
  · rfl
  · split
    · rfl
    · split <;> rfl

/-- The mover either leaves the public path alone or clears it. -/
theorem moveFileToVault_filePath (rOk : Bool) (it : Item) :
    (moveFileToVault rOk it).filePath = it.filePath ∨
      (moveFileToVault rOk it).filePath = none := by
  unfold moveFileToVault
  split
  · exact Or.inl rfl
  · split
    · exact Or.inl rfl
    · split
      · exact Or.inr rfl
      · exact Or.inr rfl

/-- A file item with a private path is untouched by the mover. -/
theorem moveFileToVault_of_private (rOk : Bool) (it : Item)
    (h : it.privatePath.isSome) : moveFileToVault rOk it = it := by
  unfold moveFileToVault
  rw [if_pos]
  exact Or.inr (Or.inl h)

/-! ### Recall engine lemmas -/

theorem performRecall_of_none (rOk : Bool) (id : String) (st : ServerState)
    (h : regGet st id = none) : performRecall rOk id st = st := by
  unfold performRecall
  rw [h]

theorem performRecall_of_recalled (rOk : Bool) (id : String) (st : ServerState)
    (item : Item) (h : regGet st id = some item) (hr : item.recalled = true) :
    performRecall rOk id st = st := by
  unfold performRecall
  rw [h]
  simp [hr]

/-- The item written back by a live recall; recorded under the same id. -/
def recallItem (rOk : Bool) (item : Item) : Item :=
  { (if ({ item with recalled := true, timer := false } : Item).type = ItemType.file
      then moveFileToVault rOk { item with recalled := true, timer := false }
      else { item with recalled := true, timer := false }) with unlockedForIP := none }

theorem performRecall_of_live (rOk : Bool) (id : String) (st : ServerState)
    (item : Item) (h : regGet st id = some item) (hr : item.recalled = false) :
    performRecall rOk id st =
      statePushEvent
        (statePushEvent { st with reg := regSet st.reg (recallItem rOk item) }
          item.room (Event.recalledEv id))
        item.room
        (Event.recalledOwnerEv id
          (if (recallItem rOk item).type = ItemType.file ∧
              (recallItem rOk item).privatePath.isSome
           then some (UrlRef.myfile id) else none)) := by
  unfold performRecall
  rw [h]
  simp only [hr, recallItem]
  rfl

theorem recallItem_id (rOk : Bool) (item : Item) :
    (recallItem rOk item).id = item.id := by
  unfold recallItem
  split
  · rw [moveFileToVault_id]
  · rfl

theorem recallItem_recalled (rOk : Bool) (item : Item) :
    (recallItem rOk item).recalled = true := by
  unfold recallItem
  split
  · rw [moveFileToVault_recalled]
  · rfl

theorem recallItem_protected (rOk : Bool) (item : Item) :
    (recallItem rOk item).«protected» = item.«protected» := by
  unfold recallItem
  split
  · rw [moveFileToVault_protected]
  · rfl

theorem recallItem_unlockedForIP (rOk : Bool) (item : Item) :
    (recallItem rOk item).unlockedForIP = none := rfl

theorem recallItem_timer (rOk : Bool) (item : Item) :
    (recallItem rOk item).timer = false := by
  unfold recallItem
  split
  · rw [moveFileToVault_timer]
  · rfl

theorem recallItem_ownerIP (rOk : Bool) (item : Item) :
    (recallItem rOk item).ownerIP = item.ownerIP := by
  unfold recallItem
  split
  · rw [moveFileToVault_ownerIP]
  · rfl

theorem recallItem_type (rOk : Bool) (item : Item) :
    (recallItem rOk item).type = item.type := by
  unfold recallItem
  split
  · rw [moveFileToVault_type]
  · rfl

/-- Registry view after a live recall: the target id now maps to
`recallItem`, every other id is untouched. -/
theorem regGet_performRecall_live (rOk : Bool) (id : String) (st : ServerState)
    (item : Item) (h : regGet st id = some item) (hr : item.recalled = false)
    (id' : String) :
    regGet (performRecall rOk id st) id' =
      if id' = id then some (recallItem rOk item) else regGet st id' := by
  rw [performRecall_of_live rOk id st item h hr]
  rw [regGet_statePushEvent, regGet_statePushEvent]
  show regFind (regSet st.reg (recallItem rOk item)) id' = _
  rw [regFind_regSet]
  rw [recallItem_id]
  have hid : item.id = id :=
    regFind_some_id (show regFind st.reg id = some item from h)
  rw [hid]
  rfl

/-- Trace of a live recall: exactly the two notification events. -/
theorem trace_performRecall_live (rOk : Bool) (id : String) (st : ServerState)
    (item : Item) (h : regGet st id = some item) (hr : item.recalled = false) :
    (performRecall rOk id st).trace =
      st.trace ++ [(item.room, Event.recalledEv id),
        (item.room, Event.recalledOwnerEv id
          (if (recallItem rOk item).type = ItemType.file ∧
              (recallItem rOk item).privatePath.isSome
           then some (UrlRef.myfile id) else none))] := by
  rw [performRecall_of_live rOk id st item h hr]
  show (st.trace ++ [(item.room, Event.recalledEv id)]) ++ [_] = _
  rw [List.append_assoc]
  rfl

theorem recallItem_filePath (rOk : Bool) (item : Item) :
    (recallItem rOk item).filePath = item.filePath ∨
      (recallItem rOk item).filePath = none := by
  unfold recallItem
  split
  · exact moveFileToVault_filePath rOk _
  · exact Or.inl rfl

/-! ### Invariant-preservation lemmas -/

theorem recalledMono_refl (st : ServerState) : recalledMono st st :=
  fun _ it h hr => ⟨it, h, hr⟩

theorem recalledMono_of_regEq (st st' : ServerState) (h : st'.reg = st.reg) :
    recalledMono st st' := by
  intro id it hget hr
  refine ⟨it, ?_, hr⟩
  show regFind st'.reg id = some it
  rw [h]
  exact hget

theorem recalledMono_of_regSet (st st' : ServerState) (x : Item)
    (hreg : st'.reg = regSet st.reg x)
    (hx : ∀ it, regGet st x.id = some it → it.recalled = true → x.recalled = true) :
    recalledMono st st' := by
  intro id it hget hr
  by_cases hid : id = x.id
  · subst hid
    refine ⟨x, ?_, hx it hget hr⟩
    show regFind st'.reg x.id = some x
    rw [hreg]
    exact regFind_regSet_self st.reg x
  · refine ⟨it, ?_, hr⟩
    show regFind st'.reg id = some it
    rw [hreg, regFind_regSet, if_neg hid]
    exact hget

theorem recalledMono_performRecall (rOk : Bool) (id : String) (st : ServerState) :
    recalledMono st (performRecall rOk id st) := by
  rcases hit : regGet st id with _ | item
  · rw [performRecall_of_none rOk id st hit]
    exact recalledMono_refl st
  · by_cases hr : item.recalled = true
    · rw [performRecall_of_recalled rOk id st item hit hr]
      exact recalledMono_refl st
    · have hr' : item.recalled = false := by
        cases hb : item.recalled
        · rfl
        · exact absurd hb hr
      intro id' it hget hrec
      rw [regGet_performRecall_live rOk id st item hit hr' id']
      by_cases hid : id' = id
      · rw [if_pos hid]
        exact ⟨recallItem rOk item, rfl, recallItem_recalled rOk item⟩
      · rw [if_neg hid]
        exact ⟨it, hget, hrec⟩

theorem recalledMono_unlock (hash : String → String) (rOk : Bool)
    (id pwd ip : String) (st : ServerState) :
    recalledMono st (unlock hash rOk id pwd ip st).2 := by
  rcases h : regGet st id with _ | item
  · simp only [unlock, h]
    exact recalledMono_refl st
  · simp only [unlock, h]
    by_cases hguard : item.type ≠ ItemType.file ∨ item.«protected» = false ∨
        item.recalled
    · rw [if_pos hguard]
      exact recalledMono_refl st
    · rw [if_neg hguard]
      by_cases hip : ip = item.ownerIP
      · rw [if_pos hip]
        exact recalledMono_refl st
      · rw [if_neg hip]
        by_cases hmis : hash (strOf item.salt ++ "|" ++ pwd) ≠ strOf item.pwHash
        · rw [if_pos hmis]
          exact recalledMono_performRecall rOk id st
        · rw [if_neg hmis]
          refine recalledMono_of_regSet st _ { item with unlockedForIP := some ip }
            rfl ?_
          intro it0 hget0 hrec0
          have hitid : item.id = id := regFind_some_id h
          rw [show ({ item with unlockedForIP := some ip } : Item).id = item.id
            from rfl, hitid, h] at hget0
          injection hget0 with he
          subst he
          exact hrec0

theorem recalledMono_wsRecall (rOk : Bool) (m : MemberMeta)
    (idArg : Option String) (st : ServerState) :
    recalledMono st (wsRecall rOk m idArg st).2 := by
  rcases idArg with _ | rid
  · exact recalledMono_refl st
  · rcases h : regGet st rid with _ | item
    · simp only [wsRecall, h]
      exact recalledMono_refl st
    · simp only [wsRecall, h]
      by_cases h1 : item.room ≠ m.room
      · rw [if_pos h1]
        exact recalledMono_refl st
      · rw [if_neg h1]
        by_cases h2 : item.ownerId ≠ some m.clientId
        · rw [if_pos h2]
          exact recalledMono_refl st
        · rw [if_neg h2]
          exact recalledMono_performRecall rOk rid st

theorem reg_wsJoin (room ip clientId : String) (st : ServerState) :
    (wsJoin room ip clientId st).2.reg = st.reg := by
  simp only [wsJoin]
  split
  · rfl
  · rfl

theorem reg_wsLeave (room clientId : String) (st : ServerState) :
    (wsLeave room clientId st).reg = st.reg := by
  simp only [wsLeave]
  split
  · rfl
  · rfl

theorem protNeverPublic_of_regSet (st st' : ServerState) (x : Item)
    (hreg : st'.reg = regSet st.reg x) (h : protNeverPublic st)
    (hx : x.«protected» = true → x.filePath = none) :
    protNeverPublic st' := by
  intro id' it hget hprot
  rw [show regGet st' id' = regFind st'.reg id' from rfl, hreg, regFind_regSet] at hget
  by_cases hid : id' = x.id
  · rw [if_pos hid] at hget
    injection hget with he
    subst he
    exact hx hprot
  · rw [if_neg hid] at hget
    exact h id' it hget hprot

theorem protNeverPublic_of_regEq (st st' : ServerState) (hreg : st'.reg = st.reg)
    (h : protNeverPublic st) : protNeverPublic st' := by
  intro id' it hget hprot
  rw [show regGet st' id' = regFind st'.reg id' from rfl, hreg] at hget
  exact h id' it hget hprot

theorem protNeverPublic_performRecall (rOk : Bool) (id : String)
    (st : ServerState) (h : protNeverPublic st) :
    protNeverPublic (performRecall rOk id st) := by
  rcases hit : regGet st id with _ | item
  · rw [performRecall_of_none rOk id st hit]
    exact h
  · by_cases hr : item.recalled = true
    · rw [performRecall_of_recalled rOk id st item hit hr]
      exact h
    · have hr' : item.recalled = false := by
        cases hb : item.recalled
        · rfl
        · exact absurd hb hr
      intro id' it hget hprot
      rw [regGet_performRecall_live rOk id st item hit hr' id'] at hget
      by_cases hid : id' = id
      · rw [if_pos hid] at hget
        injection hget with he
        subst he
        have hprot' : item.«protected» = true := by
          rw [← recallItem_protected rOk item]
          exact hprot
        have hfp := h id item hit hprot'
        rcases recallItem_filePath rOk item with hcase | hcase
        · rw [hcase, hfp]
        · rw [hcase]
      · rw [if_neg hid] at hget
        exact h id' it hget hprot

theorem protNeverPublic_unlock (hash : String → String) (rOk : Bool)
    (id pwd ip : String) (st : ServerState) (h : protNeverPublic st) :
    protNeverPublic (unlock hash rOk id pwd ip st).2 := by
  rcases hit : regGet st id with _ | item
  · simp only [unlock, hit]
    exact h
  · simp only [unlock, hit]
    by_cases hguard : item.type ≠ ItemType.file ∨ item.«protected» = false ∨
        item.recalled
    · rw [if_pos hguard]
      exact h
    · rw [if_neg hguard]
      by_cases hip : ip = item.ownerIP
      · rw [if_pos hip]
        exact h
      · rw [if_neg hip]
        by_cases hmis : hash (strOf item.salt ++ "|" ++ pwd) ≠ strOf item.pwHash
        · rw [if_pos hmis]
          exact protNeverPublic_performRecall rOk id st h
        · rw [if_neg hmis]
          refine protNeverPublic_of_regSet st _ { item with unlockedForIP := some ip }
            rfl h ?_
          intro hprot
          have hitid : item.id = id := regFind_some_id hit
          exact h id item hit hprot

theorem protNeverPublic_wsRecall (rOk : Bool) (m : MemberMeta)
    (idArg : Option String) (st : ServerState) (h : protNeverPublic st) :
    protNeverPublic (wsRecall rOk m idArg st).2 := by
  rcases idArg with _ | rid
  · exact h
  · rcases hit : regGet st rid with _ | item
    · simp only [wsRecall, hit]
      exact h
    · simp only [wsRecall, hit]
      by_cases h1 : item.room ≠ m.room
      · rw [if_pos h1]
        exact h
      · rw [if_neg h1]
        by_cases h2 : item.ownerId ≠ some m.clientId
        · rw [if_pos h2]
          exact h
        · rw [if_neg h2]
          exact protNeverPublic_performRecall rOk rid st h

/-! ### Sample states used by witnesses -/

def sampleFileItem : Item :=
  { id := "f1", room := "alpha", type := ItemType.file, ownerIP := "1.1.1.1"
    ownerId := some "c1", ts := 0, text := none
    file := some ⟨"a.txt", "1_a.txt", 3, "text/plain"⟩
    filePath := some ⟨StoredDir.uploads, "1_a.txt"⟩, privatePath := none
    recalled := false, expiresAt := none, timer := false, «protected» := false
    salt := none, pwHash := none, unlockedForIP := none }

def sampleState : ServerState := ⟨[sampleFileItem], [], [], []⟩

def samplePwItem : Item :=
  { id := "p1", room := "alpha", type := ItemType.file, ownerIP := "1.1.1.1"
    ownerId := some "c1", ts := 0, text := none
    file := some ⟨"b.txt", "2_b.txt", 3, "text/plain"⟩
    filePath := none, privatePath := some ⟨StoredDir.vault, "2_b.txt"⟩
    recalled := false, expiresAt := none, timer := false, «protected» := true
    salt := some "s1", pwHash := some "s1|secret", unlockedForIP := none }

def samplePwState : ServerState := ⟨[samplePwItem], [], [], []⟩

/-! ### Claim theorems -/

/-- C7: manual recall is idempotent. Recalling the same id twice equals
recalling it once (so the second invocation changes neither the registry,
nor the buffers, nor the emitted-event trace); the first invocation on a
live item performs the state-changing effects exactly once: it marks the
item recalled, cancels the timer, clears the unlocked identity, and emits
exactly the two notification events. -/
theorem C7_recall_idempotent :
    (∀ (rOk : Bool) (id : String) (st : ServerState),
      performRecall rOk id (performRecall rOk id st) = performRecall rOk id st) ∧
    (∀ (rOk : Bool) (id : String) (st : ServerState) (item : Item),
      regGet st id = some item → item.recalled = false →
      regGet (performRecall rOk id st) id = some (recallItem rOk item) ∧
      (recallItem rOk item).recalled = true ∧
      (recallItem rOk item).timer = false ∧
      (recallItem rOk item).unlockedForIP = none ∧
      (performRecall rOk id st).trace =
        st.trace ++ [(item.room, Event.recalledEv id),
          (item.room, Event.recalledOwnerEv id
            (if (recallItem rOk item).type = ItemType.file ∧
                (recallItem rOk item).privatePath.isSome
             then some (UrlRef.myfile id) else none))]) := by
  constructor
  · intro rOk id st
    rcases h : regGet st id with _ | item
    · rw [performRecall_of_none rOk id st h]
      exact performRecall_of_none rOk id st h
    · by_cases hr : item.recalled = true
      · rw [performRecall_of_recalled rOk id st item h hr]
        exact performRecall_of_recalled rOk id st item h hr
      · have hr' : item.recalled = false := by
          cases hb : item.recalled
          · rfl
          · exact absurd hb hr
        have hlive := regGet_performRecall_live rOk id st item h hr' id
        rw [if_pos rfl] at hlive
        exact performRecall_of_recalled rOk id (performRecall rOk id st)
          (recallItem rOk item) hlive (recallItem_recalled rOk item)
  · intro rOk id st item h hr
    refine ⟨?_, recallItem_recalled rOk item, recallItem_timer rOk item,
      recallItem_unlockedForIP rOk item, trace_performRecall_live rOk id st item h hr⟩
    have := regGet_performRecall_live rOk id st item h hr id
    rwa [if_pos rfl] at this

/-- Witness for C7 at a concrete live file artifact. -/
theorem C7_witness :
    performRecall true "f1" (performRecall true "f1" sampleState) =
      performRecall true "f1" sampleState ∧
    regGet (performRecall true "f1" sampleState) "f1" =
      some (recallItem true sampleFileItem) := by
  refine ⟨C7_recall_idempotent.1 true "f1" sampleState, ?_⟩
  exact (C7_recall_idempotent.2 true "f1" sampleState sampleFileItem rfl rfl).1

/-- C2: one wrong unlock attempt on a protected, unrecalled file by any
non-owner identity recalls the artifact and returns a failure; afterwards
any further unlock attempt on the same id — with any password, including
the correct one — fails with the invalid-item error and changes nothing. -/
theorem C2_wrong_password_recalls
    (hash : String → String) (rOk : Bool) (id pwd ip : String)
    (st : ServerState) (item : Item)
    (h : regGet st id = some item)
    (htype : item.type = ItemType.file)
    (hprot : item.«protected» = true)
    (hrec : item.recalled = false)
    (hip : ip ≠ item.ownerIP)
    (hmis : hash (strOf item.salt ++ "|" ++ pwd) ≠ strOf item.pwHash) :
    (unlock hash rOk id pwd ip st).1 = UnlockResult.wrongPassword ∧
    regGet (unlock hash rOk id pwd ip st).2 id = some (recallItem rOk item) ∧
    (recallItem rOk item).recalled = true ∧
    (∀ pwd2 ip2,
      unlock hash rOk id pwd2 ip2 (unlock hash rOk id pwd ip st).2 =
        (UnlockResult.invalidItem, (unlock hash rOk id pwd ip st).2)) := by
  have hguard : ¬ (item.type ≠ ItemType.file ∨ item.«protected» = false ∨
      item.recalled) := by
    simp [htype, hprot, hrec]
  have hstep : unlock hash rOk id pwd ip st =
      (UnlockResult.wrongPassword, performRecall rOk id st) := by
    simp only [unlock, h]
    rw [if_neg hguard, if_neg hip, if_pos hmis]
  rw [hstep]
  have hafter : regGet (performRecall rOk id st) id = some (recallItem rOk item) := by
    have := regGet_performRecall_live rOk id st item h hrec id
    rwa [if_pos rfl] at this
  refine ⟨rfl, hafter, recallItem_recalled rOk item, ?_⟩
  intro pwd2 ip2
  simp only [unlock, hafter]
  rw [if_pos (Or.inr (Or.inr (by rw [recallItem_recalled])))]

/-- Witness for C2: wrong password "wrong" recalls the sample protected
file; a later attempt with the correct password "secret" is rejected. -/
theorem C2_witness :
    (unlock (fun s => s) true "p1" "wrong" "2.2.2.2" samplePwState).1 =
      UnlockResult.wrongPassword ∧
    regGet (unlock (fun s => s) true "p1" "wrong" "2.2.2.2" samplePwState).2 "p1" =
      some (recallItem true samplePwItem) ∧
    unlock (fun s => s) true "p1" "secret" "3.3.3.3"
        (unlock (fun s => s) true "p1" "wrong" "2.2.2.2" samplePwState).2 =
      (UnlockResult.invalidItem,
        (unlock (fun s => s) true "p1" "wrong" "2.2.2.2" samplePwState).2) := by
  have h := C2_wrong_password_recalls (fun s => s) true "p1" "wrong" "2.2.2.2"
    samplePwState samplePwItem rfl rfl rfl rfl (by decide) (by decide)
  exact ⟨h.1, h.2.1, h.2.2.2 "secret" "3.3.3.3"⟩

/-- C1 refutation: through the `/push` transport a recall request carries no
requester identity and is executed without any ownership check. On a state
holding a live artifact owned by clientId `c1` / IP `1.1.1.1`, the push
recall answers `ok` (no error) and flips the artifact's recalled flag —
the registry state changes although no requester was matched against the
owner. -/
theorem C1_counterexample :
    sampleFileItem.ownerId = some "c1" ∧
    sampleFileItem.ownerIP = "1.1.1.1" ∧
    sampleFileItem.recalled = false ∧
    (pushRecall true (some "f1") sampleState).1 = PushResult.okPush ∧
    (regGet (pushRecall true (some "f1") sampleState).2 "f1").map Item.recalled =
      some true := by
  refine ⟨rfl, rfl, rfl, rfl, ?_⟩
  have h := regGet_performRecall_live true "f1" sampleState sampleFileItem rfl rfl "f1"
  rw [if_pos rfl] at h
  show (regGet (performRecall true "f1" sampleState) "f1").map Item.recalled = some true
  rw [h]
  simp [recallItem_recalled]

/-- C1 (amended): recall authorization is transport-dependent. On the
websocket transport a recall request for an artifact of the requester's room
whose recorded `ownerId` differs from the requester's clientId is answered
with an explicit error and leaves the state unchanged. On the `/push`
transport no authorization exists: any recall request naming a live
artifact performs the recall and answers ok. -/
theorem C1_recall_authorization :
    (∀ (rOk : Bool) (m : MemberMeta) (rid : String) (st : ServerState) (item : Item),
      regGet st rid = some item →
      item.room = m.room →
      item.ownerId ≠ some m.clientId →
      wsRecall rOk m (some rid) st = (WsRecallResult.errNotOwner, st)) ∧
    (∀ (rOk : Bool) (rid : String) (st : ServerState) (item : Item),
      regGet st rid = some item → item.recalled = false →
      (pushRecall rOk (some rid) st).1 = PushResult.okPush ∧
      regGet (pushRecall rOk (some rid) st).2 rid = some (recallItem rOk item) ∧
      (recallItem rOk item).recalled = true) := by
  constructor
  · intro rOk m rid st item h hroom hown
    simp only [wsRecall, h]
    rw [if_neg (by rw [hroom]; exact fun hc => hc rfl), if_pos hown]
  · intro rOk rid st item h hr
    have hafter := regGet_performRecall_live rOk rid st item h hr rid
    rw [if_pos rfl] at hafter
    exact ⟨rfl, hafter, recallItem_recalled rOk item⟩

/-- Witness for C1: a non-owner websocket recall on the sample artifact is
rejected without a state change, while the identical recall through `/push`
succeeds. -/
theorem C1_witness :
    wsRecall true ⟨"alpha", "2.2.2.2", "c2"⟩ (some "f1") sampleState =
      (WsRecallResult.errNotOwner, sampleState) ∧
    (pushRecall true (some "f1") sampleState).1 = PushResult.okPush ∧
    regGet (pushRecall true (some "f1") sampleState).2 "f1" =
      some (recallItem true sampleFileItem) := by
  refine ⟨?_, ?_, ?_⟩
  · exact C1_recall_authorization.1 true ⟨"alpha", "2.2.2.2", "c2"⟩ "f1"
      sampleState sampleFileItem rfl rfl (by decide)
  · exact (C1_recall_authorization.2 true "f1" sampleState sampleFileItem rfl rfl).1
  · exact (C1_recall_authorization.2 true "f1" sampleState sampleFileItem rfl rfl).2.1

/-- A chat text one unit longer than the 4000-unit storage bound. -/
def longText : String := String.mk (List.replicate 4001 'a')

/-- C6 refutation: for a 4001-unit input the stored artifact text is the
4000-unit truncation, but the broadcast chat event delivered to the room
carries the untruncated 4001-unit input, which differs from the stored
text. -/
theorem C6_counterexample :
    (wsChat ⟨"alpha", "1.1.1.1", "c1"⟩ (some longText) 0 "m1" initialState).trace =
      [("alpha", Event.chatEv "m1" (some "c1") longText 0)] ∧
    (regGet (wsChat ⟨"alpha", "1.1.1.1", "c1"⟩ (some longText) 0 "m1" initialState)
        "m1").bind Item.text = some (jsSlice4000 longText) ∧
    jsSlice4000 longText ≠ longText := by
  refine ⟨rfl, ?_, ?_⟩
  · have h := regFind_regSet_self initialState.reg
      (wsChatItem ⟨"alpha", "1.1.1.1", "c1"⟩ (some longText) 0 "m1")
    show (regFind (regSet initialState.reg
        (wsChatItem ⟨"alpha", "1.1.1.1", "c1"⟩ (some longText) 0 "m1")) "m1").bind
        Item.text = some (jsSlice4000 longText)
    rw [show (wsChatItem ⟨"alpha", "1.1.1.1", "c1"⟩ (some longText) 0 "m1").id = "m1"
      from rfl] at h
    rw [h]
    rfl
  · intro hEq
    have hlen : (jsSlice4000 longText).data.length = longText.data.length := by
      rw [hEq]
    simp only [jsSlice4000, longText, List.length_take, List.length_replicate] at hlen
    omega

/-- C6 (amended): every chat send (websocket or `/push`) stores the
artifact with its text truncated to 4000 units, but the broadcast chat
event carries `String(data.text||'')` — the original, untruncated input —
so room members receive the full input text, not the stored truncation. -/
theorem C6_chat_truncation :
    (∀ (m : MemberMeta) (text : Option String) (tNow : Int) (id : String)
        (st : ServerState),
      regGet (wsChat m text tNow id st) id = some (wsChatItem m text tNow id) ∧
      (wsChatItem m text tNow id).text = some (jsSlice4000 (strOf text)) ∧
      (wsChat m text tNow id st).trace =
        st.trace ++ [(m.room, Event.chatEv id (some m.clientId) (strOf text) tNow)]) ∧
    (∀ (room : String) (fromId : Option String) (text : Option String)
        (tNow : Int) (id : String) (st : ServerState),
      regGet (pushChat room fromId text tNow id st).2 id =
        some (pushChatItem room fromId text tNow id) ∧
      (pushChatItem room fromId text tNow id).text = some (jsSlice4000 (strOf text)) ∧
      ((pushChat room fromId text tNow id st).2).trace =
        st.trace ++ [(room, Event.chatEv id fromId (strOf text) tNow)]) := by
  constructor
  · intro m text tNow id st
    refine ⟨?_, rfl, rfl⟩
    exact regFind_regSet_self st.reg (wsChatItem m text tNow id)
  · intro room fromId text tNow id st
    refine ⟨?_, rfl, rfl⟩
    exact regFind_regSet_self st.reg (pushChatItem room fromId text tNow id)

/-- C5: room capacity is 2. A websocket join arriving when the room already
holds two members is answered with the room-full signal and leaves the
state (in particular the room's member list) unchanged, and no join ever
pushes a room's membership above 2. -/
theorem C5_room_capacity :
    (∀ (room ip clientId : String) (st : ServerState),
      2 ≤ (roomMembers st room).length →
      wsJoin room ip clientId st = (JoinResult.roomFull, st)) ∧
    (∀ (room ip clientId : String) (st : ServerState) (r : String),
      (roomMembers st r).length ≤ 2 →
      (roomMembers (wsJoin room ip clientId st).2 r).length ≤ 2) := by
  constructor
  · intro room ip clientId st h
    simp only [wsJoin]
    rw [if_pos h]
  · intro room ip clientId st r h
    by_cases hfull : 2 ≤ (roomMembers st room).length
    · simp only [wsJoin]
      rw [if_pos hfull]
      exact h
    · simp only [wsJoin]
      rw [if_neg hfull]
      show (roomMembers { st with
        rooms := roomsSet st.rooms room
          (roomMembers st room ++ [⟨room, ip, clientId⟩]) } r).length ≤ 2
      rw [roomMembers_roomsSet st st.rooms room _ r]
      by_cases hr : r = room
      · rw [if_pos hr]
        rw [List.length_append, List.length_singleton]
        omega
      · rw [if_neg hr]
        exact h

theorem uploadRecord_prot_filePath (hash : String → String) (room ownerIP : String)
    (ownerId : Option String) (ttlIn : Option Int) (pw : Option String)
    (tNow : Int) (id salt : String) (f : UploadedFile) :
    (uploadRecord hash room ownerIP ownerId ttlIn pw tNow id salt f).«protected» = true →
    (uploadRecord hash room ownerIP ownerId ttlIn pw tNow id salt f).filePath = none := by
  intro hp
  by_cases hpw : pwRawOf pw ≠ ""
  · simp [uploadRecord, hpw]
  · exfalso
    simp [uploadRecord, hpw] at hp

/-- C4: a file uploaded with a non-empty (trimmed) password yields a record
that is protected, carries the generated salt and the salted hash of the
password (the raw password is stored nowhere — the record has no such
field), has no public path, and sits in the vault directory from creation;
and across the whole system no protected item is ever reachable through a
public path: the invariant holds initially and is preserved by every
operation. -/
theorem C4_protected_never_public :
    (∀ (hash : String → String) (room ownerIP : String) (ownerId : Option String)
        (ttlIn : Option Int) (pw : Option String) (tNow : Int) (id salt : String)
        (f : UploadedFile),
      pwRawOf pw ≠ "" →
      (uploadRecord hash room ownerIP ownerId ttlIn pw tNow id salt f).«protected» = true ∧
      (uploadRecord hash room ownerIP ownerId ttlIn pw tNow id salt f).salt = some salt ∧
      (uploadRecord hash room ownerIP ownerId ttlIn pw tNow id salt f).pwHash =
        some (hash (salt ++ "|" ++ pwRawOf pw)) ∧
      (uploadRecord hash room ownerIP ownerId ttlIn pw tNow id salt f).filePath = none ∧
      (uploadRecord hash room ownerIP ownerId ttlIn pw tNow id salt f).privatePath =
        some ⟨StoredDir.vault, f.savedBase⟩) ∧
    protNeverPublic initialState ∧
    (∀ (op : Op) (st : ServerState),
      protNeverPublic st → protNeverPublic (stepState op st)) := by
  refine ⟨?_, ?_, ?_⟩
  · intro hash room ownerIP ownerId ttlIn pw tNow id salt f hpw
    refine ⟨?_, ?_, ?_, ?_, ?_⟩ <;> simp [uploadRecord, hpw]
  · intro id it hget _
    exact Option.noConfusion hget
  · intro op st h
    cases op with
    | opUpload hash room ownerIP ownerId ttlIn pw tNow id salt f =>
      exact protNeverPublic_of_regSet st _
        (uploadRecord hash room ownerIP ownerId ttlIn pw tNow id salt f) rfl h
        (uploadRecord_prot_filePath hash room ownerIP ownerId ttlIn pw tNow id salt f)
    | opWsChat m text tNow id =>
      refine protNeverPublic_of_regSet st _ (wsChatItem m text tNow id) rfl h ?_
      intro hp
      exact absurd hp (by simp [wsChatItem])
    | opPushChat room fromId text tNow id =>
      refine protNeverPublic_of_regSet st _ (pushChatItem room fromId text tNow id)
        rfl h ?_
      intro hp
      exact absurd hp (by simp [pushChatItem])
    | opWsJoin room ip clientId =>
      exact protNeverPublic_of_regEq st _ (reg_wsJoin room ip clientId st) h
    | opWsLeave room clientId =>
      exact protNeverPublic_of_regEq st _ (reg_wsLeave room clientId st) h
    | opWsRecall rOk m idArg =>
      exact protNeverPublic_wsRecall rOk m idArg st h
    | opPushRecall rOk idArg =>
      rcases idArg with _ | rid
      · exact h
      · exact protNeverPublic_performRecall rOk rid st h
    | opUnlock hash rOk id pwd ip =>
      exact protNeverPublic_unlock hash rOk id pwd ip st h
    | opTimerFire rOk id =>
      exact protNeverPublic_performRecall rOk id st h

/-- Witness for C4: a concrete password-protected upload record is vaulted
and hash-protected, and the invariant step holds on a concrete state. -/
theorem C4_witness :
    (uploadRecord (fun s => s) "alpha" "1.1.1.1" (some "c1") none (some "pw") 0
        "u1" "s2" ⟨"c.txt", "3_c.txt", 4, "text/plain"⟩).«protected» = true ∧
    (uploadRecord (fun s => s) "alpha" "1.1.1.1" (some "c1") none (some "pw") 0
        "u1" "s2" ⟨"c.txt", "3_c.txt", 4, "text/plain"⟩).filePath = none ∧
    (uploadRecord (fun s => s) "alpha" "1.1.1.1" (some "c1") none (some "pw") 0
        "u1" "s2" ⟨"c.txt", "3_c.txt", 4, "text/plain"⟩).privatePath =
      some ⟨StoredDir.vault, "3_c.txt"⟩ ∧
    protNeverPublic (stepState (Op.opTimerFire true "zz") initialState) := by
  have h1 := C4_protected_never_public.1 (fun s => s) "alpha" "1.1.1.1" (some "c1")
    none (some "pw") 0 "u1" "s2" ⟨"c.txt", "3_c.txt", 4, "text/plain"⟩ (by decide)
  exact ⟨h1.1, h1.2.2.2.1, h1.2.2.2.2,
    C4_protected_never_public.2.2 (Op.opTimerFire true "zz") initialState
      C4_protected_never_public.2.1⟩

/-- After recalling (with a successful rename) a freshly uploaded file, the
record's private path is the vault location of the saved file, whether or
not the upload was password-protected. -/
theorem recallItem_uploadRecord_privatePath (hash : String → String)
    (room ownerIP : String) (ownerId : Option String) (ttlIn : Option Int)
    (pw : Option String) (tNow : Int) (id salt : String) (f : UploadedFile) :
    (recallItem true (uploadRecord hash room ownerIP ownerId ttlIn pw tNow id salt f)).privatePath =
      some ⟨StoredDir.vault, f.savedBase⟩ := by
  by_cases hpw : pwRawOf pw ≠ "" <;>
    simp [recallItem, moveFileToVault, uploadRecord, hpw]

/-- C3: the recalled flag is monotone — no operation of the server ever
turns `recalled` back to false on a recorded artifact (artifact-creating
operations use fresh ids) — and the create → recall → resolve round trip:
after uploading a file and recalling it, reference resolution for every
identity other than the owner is denied, while the owner still retrieves
the file bytes through the owner-gated `/myfile` endpoint (given the
vault rename succeeded). -/
theorem C3_recall_permanent :
    (∀ (op : Op) (st : ServerState), opFresh op st →
      recalledMono st (stepState op st)) ∧
    (∀ (hash : String → String) (room ownerIP : String) (ownerId : Option String)
        (ttlIn : Option Int) (pw : Option String) (tNow : Int) (id salt : String)
        (f : UploadedFile) (st : ServerState) (rOk : Bool) (ip : String),
      ip ≠ ownerIP →
      fileurl id ip
          (performRecall rOk id
            (uploadOne hash room ownerIP ownerId ttlIn pw tNow id salt f st)) =
        FileUrlResult.notAccessible) ∧
    (∀ (hash : String → String) (room ownerIP : String) (ownerId : Option String)
        (ttlIn : Option Int) (pw : Option String) (tNow : Int) (id salt : String)
        (f : UploadedFile) (st : ServerState),
      myfile id ownerIP
          (performRecall true id
            (uploadOne hash room ownerIP ownerId ttlIn pw tNow id salt f st)) =
        ServeResult.served ⟨StoredDir.vault, f.savedBase⟩) := by
  refine ⟨?_, ?_, ?_⟩
  · intro op st hfresh
    cases op with
    | opUpload hash room ownerIP ownerId ttlIn pw tNow id salt f =>
      refine recalledMono_of_regSet st _
        (uploadRecord hash room ownerIP ownerId ttlIn pw tNow id salt f) rfl ?_
      intro it0 hget0 _
      have hf : regGet st id = none := hfresh
      rw [show (uploadRecord hash room ownerIP ownerId ttlIn pw tNow id salt f).id = id
        from rfl, hf] at hget0
      exact Option.noConfusion hget0
    | opWsChat m text tNow id =>
      refine recalledMono_of_regSet st _ (wsChatItem m text tNow id) rfl ?_
      intro it0 hget0 _
      have hf : regGet st id = none := hfresh
      rw [show (wsChatItem m text tNow id).id = id from rfl, hf] at hget0
      exact Option.noConfusion hget0
    | opPushChat room fromId text tNow id =>
      refine recalledMono_of_regSet st _ (pushChatItem room fromId text tNow id)
        rfl ?_
      intro it0 hget0 _
      have hf : regGet st id = none := hfresh
      rw [show (pushChatItem room fromId text tNow id).id = id from rfl, hf] at hget0
      exact Option.noConfusion hget0
    | opWsJoin room ip clientId =>
      exact recalledMono_of_regEq st _ (reg_wsJoin room ip clientId st)
    | opWsLeave room clientId =>
      exact recalledMono_of_regEq st _ (reg_wsLeave room clientId st)
    | opWsRecall rOk m idArg =>
      exact recalledMono_wsRecall rOk m idArg st
    | opPushRecall rOk idArg =>
      rcases idArg with _ | rid
      · exact recalledMono_refl st
      · exact recalledMono_performRecall rOk rid st
    | opUnlock hash rOk id pwd ip =>
      exact recalledMono_unlock hash rOk id pwd ip st
    | opTimerFire rOk id =>
      exact recalledMono_performRecall rOk id st
  · intro hash room ownerIP ownerId ttlIn pw tNow id salt f st rOk ip hip
    have hget1 : regGet (uploadOne hash room ownerIP ownerId ttlIn pw tNow id salt f st)
        id = some (uploadRecord hash room ownerIP ownerId ttlIn pw tNow id salt f) :=
      regFind_regSet_self st.reg _
    have hget2 := regGet_performRecall_live rOk id _ _ hget1 rfl id
    rw [if_pos rfl] at hget2
    simp only [fileurl, hget2]
    simp [recallItem_recalled, recallItem_type, recallItem_ownerIP,
      recallItem_unlockedForIP, uploadRecord, hip]
  · intro hash room ownerIP ownerId ttlIn pw tNow id salt f st
    have hget1 : regGet (uploadOne hash room ownerIP ownerId ttlIn pw tNow id salt f st)
        id = some (uploadRecord hash room ownerIP ownerId ttlIn pw tNow id salt f) :=
      regFind_regSet_self st.reg _
    have hget2 := regGet_performRecall_live true id _ _ hget1 rfl id
    rw [if_pos rfl] at hget2
    have hpp := recallItem_uploadRecord_privatePath hash room ownerIP ownerId
      ttlIn pw tNow id salt f
    have htype : (recallItem true
        (uploadRecord hash room ownerIP ownerId ttlIn pw tNow id salt f)).type =
        ItemType.file := recallItem_type true _
    have hown : (recallItem true
        (uploadRecord hash room ownerIP ownerId ttlIn pw tNow id salt f)).ownerIP =
        ownerIP := recallItem_ownerIP true _
    simp only [myfile, hget2]
    rw [if_neg (by rw [htype, hpp]; simp)]
    rw [if_neg (by rw [hown]; exact fun hc => hc rfl)]
    rw [hpp]
    rfl

/-- A state holding an already-recalled artifact. -/
def sampleRecalledItem : Item :=
  { sampleFileItem with
    id := "r1", recalled := true, filePath := none,
    privatePath := some ⟨StoredDir.vault, "1_a.txt"⟩ }

def sampleRecalledState : ServerState := ⟨[sampleRecalledItem], [], [], []⟩

/-- Witness for C3: after a timer fire on a state holding a recalled
artifact, the artifact is still recorded as recalled; and a concrete
upload-recall round trip denies a non-owner and serves the owner. -/
theorem C3_witness :
    (∃ it', regGet (stepState (Op.opTimerFire true "zz") sampleRecalledState) "r1" =
      some it' ∧ it'.recalled = true) ∧
    fileurl "u1" "9.9.9.9"
        (performRecall true "u1"
          (uploadOne (fun s => s) "alpha" "1.1.1.1" (some "c1") none none 0
            "u1" "s9" ⟨"d.txt", "4_d.txt", 5, "text/plain"⟩ initialState)) =
      FileUrlResult.notAccessible ∧
    myfile "u1" "1.1.1.1"
        (performRecall true "u1"
          (uploadOne (fun s => s) "alpha" "1.1.1.1" (some "c1") none none 0
            "u1" "s9" ⟨"d.txt", "4_d.txt", 5, "text/plain"⟩ initialState)) =
      ServeResult.served ⟨StoredDir.vault, "4_d.txt"⟩ := by
  refine ⟨?_, ?_, ?_⟩
  · exact C3_recall_permanent.1 (Op.opTimerFire true "zz") sampleRecalledState
      trivial "r1" sampleRecalledItem rfl rfl
  · exact C3_recall_permanent.2.1 (fun s => s) "alpha" "1.1.1.1" (some "c1") none
      none 0 "u1" "s9" ⟨"d.txt", "4_d.txt", 5, "text/plain"⟩ initialState true
      "9.9.9.9" (by decide)
  · exact C3_recall_permanent.2.2 (fun s => s) "alpha" "1.1.1.1" (some "c1") none
      none 0 "u1" "s9" ⟨"d.txt", "4_d.txt", 5, "text/plain"⟩ initialState

/-- A state whose room "alpha" already holds two members. -/
def fullRoomState : ServerState :=
  ⟨[], [],
    [("alpha", [⟨"alpha", "1.1.1.1", "c1"⟩, ⟨"alpha", "2.2.2.2", "c2"⟩])], []⟩

/-- Witness for C5: the third join into the full sample room is rejected
and membership stays at two. -/
theorem C5_witness :
    wsJoin "alpha" "3.3.3.3" "c3" fullRoomState = (JoinResult.roomFull, fullRoomState) ∧
    (roomMembers (wsJoin "alpha" "3.3.3.3" "c3" fullRoomState).2 "alpha").length ≤ 2 :=
  ⟨C5_room_capacity.1 "alpha" "3.3.3.3" "c3" fullRoomState (by decide),
   C5_room_capacity.2 "alpha" "3.3.3.3" "c3" fullRoomState "alpha" (by decide)⟩

/-- C10: the upload endpoint consults no room membership. For every room
name and every state — regardless of what `roomsWS` holds, in particular
for a room with no members at all — an upload answers ok, stores the file
record in the registry (with its TTL fields exactly as computed), and
pushes the file-available event (followed by the owner augmentation) into
that room's poll buffer; the result does not depend on the membership map
at all (`roomsWS` is read by no part of the handler). -/
theorem C10_upload_ignores_membership :
    ∀ (hash : String → String) (room ownerIP : String) (ownerId : Option String)
      (ttlIn : Option Int) (pw : Option String) (tNow : Int) (id salt : String)
      (f : UploadedFile) (st : ServerState),
      (uploadPost hash room ownerIP ownerId ttlIn pw tNow [(id, salt, f)] st).1 = true ∧
      (uploadPost hash room ownerIP ownerId ttlIn pw tNow [(id, salt, f)] st).2 =
        uploadOne hash room ownerIP ownerId ttlIn pw tNow id salt f st ∧
      regGet (uploadOne hash room ownerIP ownerId ttlIn pw tNow id salt f st) id =
        some (uploadRecord hash room ownerIP ownerId ttlIn pw tNow id salt f) ∧
      (uploadRecord hash room ownerIP ownerId ttlIn pw tNow id salt f).room = room ∧
      (uploadRecord hash room ownerIP ownerId ttlIn pw tNow id salt f).expiresAt =
        (if ttlSecOf ttlIn > 0 then some (tNow + ttlSecOf ttlIn * 1000) else none) ∧
      (uploadRecord hash room ownerIP ownerId ttlIn pw tNow id salt f).timer =
        decide (ttlSecOf ttlIn > 0) ∧
      bufGet (uploadOne hash room ownerIP ownerId ttlIn pw tNow id salt f st).buffers
          room =
        bufPush (bufPush (bufGet st.buffers room)
            (uploadPayload hash room ownerIP ownerId ttlIn pw tNow id salt f))
          (uploadOwnerAug hash room ownerIP ownerId ttlIn pw tNow id salt f) ∧
      (∀ rs, uploadOne hash room ownerIP ownerId ttlIn pw tNow id salt f
          { st with rooms := rs } =
        { uploadOne hash room ownerIP ownerId ttlIn pw tNow id salt f st with
            rooms := rs }) := by
  intro hash room ownerIP ownerId ttlIn pw tNow id salt f st
  refine ⟨rfl, rfl, ?_, rfl, rfl, rfl, ?_, fun rs => rfl⟩
  · exact regFind_regSet_self st.reg
      (uploadRecord hash room ownerIP ownerId ttlIn pw tNow id salt f)
  · simp only [uploadOne, statePushEvent]
    rw [bufGet_bufSet, if_pos rfl, bufGet_bufSet, if_pos rfl]

/-- C8 refutation: the 31-day TTL cap exceeds what the timer can carry.
For `ttlSeconds = 31*24*3600` (the maximum the clamp admits), an artifact
created and scheduled at time 0 has `expiresAt = 2678400000` ms but the
armed delay is clamped to 2147483647 ms, so the timer fires at
2147483647 < createdAt + T — strictly before the promised time. -/
theorem C8_counterexample :
    ttlSecOf (some (31 * 24 * 3600)) = 31 * 24 * 3600 ∧
    fireAt (0 + 31 * 24 * 3600 * 1000) 0 = 2147483647 ∧
    fireAt (0 + 31 * 24 * 3600 * 1000) 0 < 0 + 31 * 24 * 3600 * 1000 := by
  refine ⟨by decide, by decide, by decide⟩

/-- C8 (amended): the requested TTL is clamped into [0, 31 days]; the TTL
timer delay is additionally clamped into [0, 2147483647] ms. Hence when the
remaining delay fits below 2^31 ms the timer fires exactly at `expiresAt`
(at or after `createdAt + T`, never before), when scheduling happens after
expiry it fires immediately, but when the remaining delay exceeds
2147483647 ms the timer fires at `tNow + 2147483647`, strictly before
`expiresAt`. Firing executes `performRecall`, which recalls a live
artifact. -/
theorem C8_ttl_schedule (expiresAt tNow : Int) :
    (∀ t : Option Int, 0 ≤ ttlSecOf t ∧ ttlSecOf t ≤ 31 * 24 * 3600) ∧
    (tNow ≤ expiresAt → expiresAt - tNow ≤ 2147483647 →
      fireAt expiresAt tNow = expiresAt) ∧
    (expiresAt < tNow → fireAt expiresAt tNow = tNow) ∧
    (2147483647 < expiresAt - tNow →
      fireAt expiresAt tNow = tNow + 2147483647 ∧
      fireAt expiresAt tNow < expiresAt) ∧
    (∀ (rOk : Bool) (id : String) (st : ServerState) (item : Item),
      regGet st id = some item → item.recalled = false →
      timerFire rOk id st = performRecall rOk id st ∧
      regGet (timerFire rOk id st) id = some (recallItem rOk item) ∧
      (recallItem rOk item).recalled = true) := by
  refine ⟨?_, ?_, ?_, ?_, ?_⟩
  · intro t
    rcases t with _ | n
    · exact ⟨by decide, by decide⟩
    · unfold ttlSecOf clampI
      constructor <;> omega
  · intro h1 h2
    unfold fireAt scheduleDelay clampI
    omega
  · intro h1
    unfold fireAt scheduleDelay clampI
    omega
  · intro h1
    unfold fireAt scheduleDelay clampI
    omega
  · intro rOk id st item h hr
    refine ⟨rfl, ?_, recallItem_recalled rOk item⟩
    have := regGet_performRecall_live rOk id st item h hr id
    rw [if_pos rfl] at this
    exact this

/-- Witness for C8 at concrete times: in-range delay fires at expiry, late
scheduling fires immediately, an oversized delay fires early, and a timer
fire recalls the sample artifact. -/
theorem C8_witness :
    fireAt 5000 1000 = 5000 ∧
    fireAt 1000 2000 = 2000 ∧
    (fireAt 3000000000 0 = 0 + 2147483647 ∧ fireAt 3000000000 0 < 3000000000) ∧
    regGet (timerFire true "f1" sampleState) "f1" =
      some (recallItem true sampleFileItem) := by
  refine ⟨(C8_ttl_schedule 5000 1000).2.1 (by decide) (by decide),
    (C8_ttl_schedule 1000 2000).2.2.1 (by decide),
    (C8_ttl_schedule 3000000000 0).2.2.2.1 (by decide),
    ((C8_ttl_schedule 0 0).2.2.2.2 true "f1" sampleState sampleFileItem rfl rfl).2.1⟩

/-- Well-formedness of a room buffer: events strictly increasing in
sequence number, all sequence numbers below `nextSeq`, and at most 1000
events retained. -/
structure BufWF (b : RoomBuf) : Prop where
  sorted : b.events.Pairwise (fun x y => x.1 < y.1)
  below : ∀ x ∈ b.events, x.1 < b.nextSeq
  cap : b.events.length ≤ 1000

theorem bufWF_emptyBuf : BufWF emptyBuf := by
  refine ⟨List.Pairwise.nil, ?_, by decide⟩
  intro x hx
  exact absurd hx (List.not_mem_nil x)

theorem bufWF_bufPush (b : RoomBuf) (e : Event) (h : BufWF b) :
    BufWF (bufPush b e) := by
  have hsorted : (b.events ++ [(b.nextSeq, e)]).Pairwise (fun x y => x.1 < y.1) := by
    rw [List.pairwise_append]
    refine ⟨h.sorted, List.pairwise_singleton _ _, ?_⟩
    intro a ha c hc
    rw [List.mem_singleton] at hc
    subst hc
    exact h.below a ha
  have hsub : (bufPush b e).events.Sublist (b.events ++ [(b.nextSeq, e)]) := by
    unfold bufPush
    dsimp only
    split
    · exact List.drop_sublist _ _
    · exact List.Sublist.refl _
  refine ⟨List.Pairwise.sublist hsub hsorted, ?_, ?_⟩
  · intro x hx
    have hx' := hsub.subset hx
    rw [List.mem_append] at hx'
    show x.1 < b.nextSeq + 1
    rcases hx' with hx' | hx'
    · exact Nat.lt_succ_of_lt (h.below x hx')
    · rw [List.mem_singleton] at hx'
      subst hx'
      exact Nat.lt_succ_self _
  · unfold bufPush
    dsimp only
    split
    · rw [List.length_drop]
      omega
    · rename_i hlen
      rw [Nat.not_lt] at hlen
      exact hlen

/-- Every room buffer of a state is well-formed. -/
def buffersWF (st : ServerState) : Prop := ∀ r, BufWF (bufGet st.buffers r)

theorem buffersWF_statePushEvent (st : ServerState) (room : String) (e : Event)
    (h : buffersWF st) : buffersWF (statePushEvent st room e) := by
  intro r
  show BufWF (bufGet (bufSet st.buffers room (bufPush (bufGet st.buffers room) e)) r)
  rw [bufGet_bufSet]
  by_cases hr : r = room
  · rw [if_pos hr]
    exact bufWF_bufPush _ e (h room)
  · rw [if_neg hr]
    exact h r

/-- C9: the poll endpoint answers exactly the buffered events with sequence
number strictly greater than the cursor, in buffer order, together with the
room's next sequence value; under the buffer invariant (which holds
initially and is preserved by every event push) the answered list is
strictly increasing in sequence number; each push assigns the next sequence
number (strictly above every buffered one), increments the counter, and the
buffer retains at most the newest 1000 events. -/
theorem C9_poll_cursor :
    (∀ (room : String) (after : Nat) (st : ServerState),
      poll room after st =
        ((bufGet st.buffers room).events.filter (fun ev => after < ev.1),
          (bufGet st.buffers room).nextSeq) ∧
      (∀ ev, ev ∈ (poll room after st).1 ↔
        ev ∈ (bufGet st.buffers room).events ∧ after < ev.1)) ∧
    (∀ (b : RoomBuf) (after : Nat), BufWF b →
      (b.events.filter (fun ev => after < ev.1)).Pairwise (fun x y => x.1 < y.1)) ∧
    buffersWF initialState ∧
    (∀ (st : ServerState) (room : String) (e : Event),
      buffersWF st → buffersWF (statePushEvent st room e)) ∧
    (∀ (b : RoomBuf) (e : Event),
      (bufPush b e).nextSeq = b.nextSeq + 1 ∧
      (b.nextSeq, e) ∈ (bufPush b e).events ∧
      (bufPush b e).events.length = min (b.events.length + 1) 1000 ∧
      (BufWF b → ∀ x ∈ b.events, x.1 < b.nextSeq)) := by
  refine ⟨?_, ?_, ?_, buffersWF_statePushEvent, ?_⟩
  · intro room after st
    refine ⟨rfl, ?_⟩
    intro ev
    show ev ∈ (bufGet st.buffers room).events.filter (fun ev => after < ev.1) ↔ _
    rw [List.mem_filter]
    simp
  · intro b after h
    exact List.Pairwise.sublist (List.filter_sublist _) h.sorted
  · intro r
    exact bufWF_emptyBuf
  · intro b e
    refine ⟨rfl, ?_, ?_, fun h => h.below⟩
    · unfold bufPush
      dsimp only
      split
      · rename_i hlen
        rw [List.length_append, List.length_singleton] at hlen
        rw [List.drop_append_of_le_length
          (by rw [List.length_append, List.length_singleton]; omega)]
        exact List.mem_append_right _ (List.mem_singleton_self _)
      · exact List.mem_append_right _ (List.mem_singleton_self _)
    · unfold bufPush
      dsimp only
      split
      · rename_i hlen
        rw [List.length_drop]
        rw [List.length_append, List.length_singleton] at hlen ⊢
        omega
      · rename_i hlen
        rw [Nat.not_lt] at hlen
        rw [List.length_append, List.length_singleton] at hlen ⊢
        omega

/-- Witness for C9: a concrete two-event buffer polled past its first
event yields the strictly-increasing tail, and the invariant holds after a
concrete push. -/
theorem C9_witness :
    ((bufPush (bufPush emptyBuf (Event.recalledEv "a")) (Event.recalledEv "b")).events.filter
        (fun ev => 1 < ev.1)).Pairwise (fun x y => x.1 < y.1) ∧
    buffersWF (statePushEvent initialState "alpha" (Event.recalledEv "a")) := by
  refine ⟨C9_poll_cursor.2.1
      (bufPush (bufPush emptyBuf (Event.recalledEv "a")) (Event.recalledEv "b")) 1
      (bufWF_bufPush _ _ (bufWF_bufPush _ _ bufWF_emptyBuf)), ?_⟩
  exact C9_poll_cursor.2.2.2.1 initialState "alpha" (Event.recalledEv "a")
    C9_poll_cursor.2.2.1

end Haliport
